import Mathlib

/-!
Verification development for the Blender Ptex per-face texture subsystem
(`source/blender/blenkernel/intern/bke_ptex.c`).

The C code is shallowly embedded: pure functions become Lean functions,
in-place mutation becomes explicit state passing, and calls into the external
BPX image library are modelled by explicit oracle parameters (success flags
and delivered pixel data).  Machine integers are modelled by `Nat`/`Int` with
explicit reductions modulo `2 ^ 32` (C `int`, two's complement wraparound) and
`2 ^ 64` (C `size_t`) at the points where the C arithmetic can overflow.
C `float` values are modelled by exact rationals.
-/

/-! ## Texel descriptor (`MPtexDataType`, `MPtexTexelInfo`, `MPtexLogRes`) -/

inductive MPtexDataType where
  | uint8
  | float32
deriving DecidableEq

structure MPtexTexelInfo where
  data_type : MPtexDataType
  num_channels : Nat
deriving DecidableEq

structure MPtexLogRes where
  u : Nat
  v : Nat
deriving DecidableEq

/-- Embeds `ptex_data_type_num_bytes` (bke_ptex.c:56). -/
def ptex_data_type_num_bytes : MPtexDataType → Nat
  | .uint8 => 1
  | .float32 => 4

/-- Embeds `ptex_rlog2_limit` (bke_ptex.c:69). -/
def ptex_rlog2_limit : Nat := 30

/-- Embeds `ptex_rlog2_valid` (bke_ptex.c:70); `rlog2 >= 0` is automatic for `Nat`. -/
def ptex_rlog2_valid (rlog2 : Nat) : Bool := rlog2 ≤ ptex_rlog2_limit

/-- Embeds `ptex_res_from_rlog2` (bke_ptex.c:76): `1 << rlog2` on a C `int`,
exact for `rlog2 ≤ 30`. -/
def ptex_res_from_rlog2 (rlog2 : Nat) : Nat := 2 ^ rlog2

/-- Two's-complement value of a C 32-bit `int` holding the wrapped product of
nonnegative operands (signed overflow modelled as wraparound). -/
def int32_of_nat_wrap (n : Nat) : Int :=
  let w : Nat := n % 2 ^ 32
  if w < 2 ^ 31 then (w : Int) else (w : Int) - 2 ^ 32

/-- C conversion of a (possibly negative) `int` value to `size_t` (64-bit),
i.e. reduction modulo `2 ^ 64`. -/
def size_t_of_int32 (i : Int) : Nat := (i % (2 ^ 64 : Int)).toNat

/-- Embeds `ptex_area_from_logres` (bke_ptex.c:82): the product
`ptex_res_from_rlog2 u * ptex_res_from_rlog2 v` is computed in C `int`
arithmetic (wrapping for `u + v ≥ 31`) and then converted to `size_t`. -/
def ptex_area_from_logres (logres : MPtexLogRes) : Nat :=
  size_t_of_int32 (int32_of_nat_wrap
    (ptex_res_from_rlog2 logres.u * ptex_res_from_rlog2 logres.v))

/-- Embeds `BKE_ptex_bytes_per_texel` (bke_ptex.c:96). -/
def BKE_ptex_bytes_per_texel (texel_info : MPtexTexelInfo) : Nat :=
  ptex_data_type_num_bytes texel_info.data_type * texel_info.num_channels

/-- Embeds `BKE_ptex_rect_num_bytes` (bke_ptex.c:102); the multiplication is
C `size_t` arithmetic, hence the reduction modulo `2 ^ 64`. -/
def BKE_ptex_rect_num_bytes (texel_info : MPtexTexelInfo) (logres : MPtexLogRes) : Nat :=
  (BKE_ptex_bytes_per_texel texel_info * ptex_area_from_logres logres) % 2 ^ 64

/-- The spec's formula for `rect_size` (spec §4.1/§8): `bytes_per_texel × 2^u × 2^v`
as unbounded integers.  Kept separate from the embedding of the C function so the
two can be compared. -/
def rect_num_bytes_spec (texel_info : MPtexTexelInfo) (logres : MPtexLogRes) : Nat :=
  BKE_ptex_bytes_per_texel texel_info * (2 ^ logres.u * 2 ^ logres.v)

/-! ## Raster store (`MLoopPtex`, init / fill / resize) -/

/-- One texel in a raster buffer: the byte image of one pixel, as written by
`ptex_data_from_float` — either `num_channels` uint8 bytes or `num_channels`
32-bit floats (modelled as exact rationals). -/
inductive PtexTexel where
  | u8 (bytes : List Nat)
  | f32 (vals : List ℚ)
deriving DecidableEq

/-- Embeds Blender's `FTOCHAR` macro (BLI_utildefines.h), used by
`ptex_data_from_float`: clamp to `[0, 255]` with round-to-nearest
(`(char)(255.0f * val + 0.5f)`, truncation of a positive value = floor). -/
def FTOCHAR (val : ℚ) : Nat :=
  if val ≤ 0 then 0
  else if val > 1 - (1 / 2) / 255 then 255
  else (⌊255 * val + 1 / 2⌋).toNat

/-- Embeds `ptex_data_from_float` (bke_ptex.c:143) for one texel of `count`
channels taken from `src`. -/
def ptex_data_from_float (src : List ℚ) (data_type : MPtexDataType) (count : Nat) : PtexTexel :=
  match data_type with
  | .uint8 => .u8 ((src.take count).map FTOCHAR)
  | .float32 => .f32 (src.take count)

/-- Per-face raster state (`MLoopPtex`): texel layout, log resolution and the
owned pixel buffer (`none` models a NULL `rect` pointer). -/
structure MLoopPtex where
  texel_info : MPtexTexelInfo
  logres : MPtexLogRes
  rect : Option (List PtexTexel)
deriving DecidableEq

/-- Embeds `bke_ptex_texels_malloc` (bke_ptex.c:136): an uninitialized
allocation holding `ptex_area_from_logres logres` texels.  The contents of the
fresh C allocation are unspecified; they are modelled by an arbitrary fixed
texel value, and every path of the embedded code overwrites them before use. -/
def bke_ptex_texels_malloc (logres : MPtexLogRes) : List PtexTexel :=
  List.replicate (ptex_area_from_logres logres) (.u8 [])

/-- Embeds `bke_loop_ptex_fill` (bke_ptex.c:175): fails on a NULL buffer or an
empty area, otherwise converts `fpixel` once and replicates it over the whole
rect. -/
def bke_loop_ptex_fill (lp : MLoopPtex) (fpixel : List ℚ) : MLoopPtex × Bool :=
  match lp.rect with
  | none => (lp, false)
  | some _ =>
    let area := ptex_area_from_logres lp.logres
    if area < 1 then (lp, false)
    else
      ({ lp with rect := some (List.replicate area
          (ptex_data_from_float fpixel lp.texel_info.data_type lp.texel_info.num_channels)) },
       true)

/-- The default fill color `{0.8, 0.8, 0.8, 1}` of `BKE_loop_ptex_init`
(bke_ptex.c:214). -/
def default_pixel : List ℚ := [4 / 5, 4 / 5, 4 / 5, 1]

/-- Embeds `BKE_loop_ptex_init` (bke_ptex.c:200): stores the descriptor, allocates
the rect and fills it with the default color. -/
def BKE_loop_ptex_init (texel_info : MPtexTexelInfo) (logres : MPtexLogRes) : MLoopPtex :=
  let lp : MLoopPtex :=
    { texel_info := texel_info, logres := logres,
      rect := some (bke_ptex_texels_malloc logres) }
  (bke_loop_ptex_fill lp default_pixel).1

/-- Embeds `BKE_loop_ptex_resize` (bke_ptex.c:714).  The external
`BPX_image_buf_resize` call (resampling into the freshly allocated destination
buffer) is modelled by the oracle `resize_result`: `none` for failure, `some buf`
for success with resampled contents `buf`.  On success the old rect is freed and
the new buffer and destination logres are installed; on any failure the raster is
returned unchanged. -/
def BKE_loop_ptex_resize (resize_result : Option (List PtexTexel))
    (lp : MLoopPtex) (dst_logres : MPtexLogRes) : MLoopPtex × Bool :=
  match lp.rect with
  | none => (lp, false)
  | some _ =>
    match resize_result with
    | some new_rect =>
      ({ texel_info := lp.texel_info, logres := dst_logres, rect := some new_rect }, true)
    | none => (lp, false)

/-! ## Mesh topology snapshot and edge-adjacency index -/

/-- Mesh loop (`MLoop`): only the `e` (edge index) field is used by this code. -/
structure MLoop where
  e : Nat
deriving DecidableEq

/-- Mesh polygon (`MPoly`): loop range `[loopstart, loopstart + totloop)`. -/
structure MPoly where
  loopstart : Nat
  totloop : Nat
deriving DecidableEq

/-- Read-only mesh topology snapshot, as consumed by bke_ptex.c: `mpoly`,
`mloop` and `totedge` (`totpoly`/`totloop` are the list lengths). -/
structure Mesh where
  mpoly : List MPoly
  mloop : List MLoop
  totedge : Nat
deriving DecidableEq

/-- Embeds the constant `BKE_PTEX_NO_ADJ_POLY` (bke_ptex.c:315). -/
def BKE_PTEX_NO_ADJ_POLY : Int := -1

/-- Embeds `BKEPtexEdgeAdj` (bke_ptex.c:321): the (at most
`BKE_PTEX_MAX_ADJ_POLYS = 2`) polygons adjacent to one edge, `-1` = empty slot. -/
structure BKEPtexEdgeAdj where
  polys0 : Int
  polys1 : Int
deriving DecidableEq

/-- Embeds `bke_ptex_edge_adj_other_poly` (bke_ptex.c:375) on a non-NULL record:
find the slot holding `poly_index` and return the complementary slot
(`polys[MAX_ADJ - i - 1]`); `-1` when `poly_index` occupies no slot. -/
def bke_ptex_edge_adj_other_poly (edge_adj : BKEPtexEdgeAdj) (poly_index : Int) : Int :=
  if edge_adj.polys0 = poly_index then edge_adj.polys1
  else if edge_adj.polys1 = poly_index then edge_adj.polys0
  else BKE_PTEX_NO_ADJ_POLY

/-- One insertion step of `bke_ptex_edge_adj_init`'s inner slot loop
(bke_ptex.c:363): put `poly_index` into the first empty slot, leaving the
record unchanged when both slots are taken. -/
def bke_ptex_edge_adj_insert (r : BKEPtexEdgeAdj) (poly_index : Int) : BKEPtexEdgeAdj :=
  if r.polys0 = BKE_PTEX_NO_ADJ_POLY then { polys0 := poly_index, polys1 := r.polys1 }
  else if r.polys1 = BKE_PTEX_NO_ADJ_POLY then { polys0 := r.polys0, polys1 := poly_index }
  else r

/-- The edge indices of one polygon's loops, in loop order
(the `l->e` values visited by the scan in bke_ptex.c:356). -/
def polyEdges (me : Mesh) (p : MPoly) : List Nat :=
  (List.range p.totloop).map (fun i => (me.mloop.getD (p.loopstart + i) ⟨0⟩).e)

/-- The flattened `(poly_index, edge)` visit sequence of
`bke_ptex_edge_adj_init`'s double loop (bke_ptex.c:353): all polygons in
increasing index order, each polygon's loops in loop order. -/
def meshLoopRefs (me : Mesh) : List (Nat × Nat) :=
  (List.range me.mpoly.length).flatMap (fun pi =>
    (polyEdges me (me.mpoly.getD pi ⟨0, 0⟩)).map (fun ed => (pi, ed)))

/-- One visit of `bke_ptex_edge_adj_init`'s scan: update the record of edge
`pr.2` by inserting polygon `pr.1`. -/
def bke_ptex_edge_adj_step (st : Nat → BKEPtexEdgeAdj) (pr : Nat × Nat) :
    Nat → BKEPtexEdgeAdj :=
  fun ed => if pr.2 = ed then bke_ptex_edge_adj_insert (st ed) (pr.1 : Int) else st ed

/-- Embeds `bke_ptex_edge_adj_init` (bke_ptex.c:343) composed with
`bke_ptex_edge_adj_alloc` (bke_ptex.c:325): starting from all-empty records,
scan every polygon's loops in order and insert the owning polygon index into
the loop's edge record.  The edge table is modelled as a total function from
edge index to record (the C code only indexes it with `ei < totedge`). -/
def bke_ptex_edge_adj_init (me : Mesh) : Nat → BKEPtexEdgeAdj :=
  (meshLoopRefs me).foldl bke_ptex_edge_adj_step (fun _ => ⟨-1, -1⟩)

/-- Insertion of a polygon index (a `Nat` cast to the C `int` slot type) into a
record; the per-edge view of `bke_ptex_edge_adj_step`. -/
def adjInsertNat (r : BKEPtexEdgeAdj) (p : Nat) : BKEPtexEdgeAdj :=
  bke_ptex_edge_adj_insert r (p : Int)

/-! ## Border filter adjacent-edge resolution (`ptex_adj_edge`) -/

/-- Embeds `BPXSide` (BPX_ptex.h), the four sides of a face raster. -/
inductive BPXSide where
  | bottom
  | top
  | left
  | right
deriving DecidableEq

/-- Embeds `BPXEdge` (BPX_ptex.h): a raster side plus a direction flag. -/
structure BPXEdge where
  side : BPXSide
  reverse : Bool
deriving DecidableEq

/-- The mesh edge queried by `ptex_adj_edge`'s cross-polygon branch
(bke_ptex.c:423): the loop's own edge for TOP, the previous loop's edge for
RIGHT. -/
def ptex_query_edge (me : Mesh) (p1 : MPoly) (loop_offset : Nat) (side : BPXSide) : Nat :=
  let e1_offset : Nat :=
    if side = BPXSide.top then loop_offset
    else (p1.totloop + loop_offset - 1) % p1.totloop
  (me.mloop.getD (p1.loopstart + e1_offset) ⟨0⟩).e

/-- The linear scan of the adjacent polygon's loops (bke_ptex.c:440): index of
the first loop of `p2` whose edge equals `e` (early return on first match). -/
def findEdgeLoop (me : Mesh) (p2 : MPoly) (e : Nat) : Option Nat :=
  (List.range p2.totloop).find? (fun i => (me.mloop.getD (p2.loopstart + i) ⟨0⟩).e == e)

/-- Embeds `ptex_adj_edge` (bke_ptex.c:389).  Returns the pair written through
the out-parameters `(*adj_loop, *adj_edge)`; `adj_edge->reverse` is hardcoded
`true` (bke_ptex.c:404).  BOTTOM and LEFT rotate inside the same polygon;
TOP and RIGHT consult the edge-adjacency index, falling back to the query's own
loop and side when there is no neighbor or the neighbor scan finds no match. -/
def ptex_adj_edge (adj : Nat → BKEPtexEdgeAdj) (me : Mesh)
    (poly_index1 loop_offset : Nat) (loop_side : BPXSide) : Nat × BPXEdge :=
  let p1 := me.mpoly.getD poly_index1 ⟨0, 0⟩
  match loop_side with
  | .bottom =>
    (p1.loopstart + (p1.totloop + loop_offset - 1) % p1.totloop, ⟨BPXSide.left, true⟩)
  | .left =>
    (p1.loopstart + (loop_offset + 1) % p1.totloop, ⟨BPXSide.bottom, true⟩)
  | side =>
    let e1 := ptex_query_edge me p1 loop_offset side
    let poly_index2 := bke_ptex_edge_adj_other_poly (adj e1) (poly_index1 : Int)
    if poly_index2 = BKE_PTEX_NO_ADJ_POLY then
      (p1.loopstart + loop_offset, ⟨side, true⟩)
    else
      let p2 := me.mpoly.getD poly_index2.toNat ⟨0, 0⟩
      match findEdgeLoop me p2 e1 with
      | some i =>
        if side = BPXSide.top then
          (p2.loopstart + (i + 1) % p2.totloop, ⟨BPXSide.right, true⟩)
        else
          (p2.loopstart + i, ⟨BPXSide.top, true⟩)
      | none => (p1.loopstart + loop_offset, ⟨side, true⟩)

/-- In-face index-rotation resolution, following the spec's words (§4.3):
BOTTOM maps to the previous loop's LEFT side, LEFT to the next loop's BOTTOM
side, inside the same polygon. -/
def adj_edge_in_face (p1 : MPoly) (loop_offset : Nat) (side : BPXSide) : Nat × BPXEdge :=
  match side with
  | .bottom =>
    (p1.loopstart + (p1.totloop + loop_offset - 1) % p1.totloop, ⟨BPXSide.left, true⟩)
  | _ =>
    (p1.loopstart + (loop_offset + 1) % p1.totloop, ⟨BPXSide.bottom, true⟩)

/-- Cross-polygon resolution, following the spec's words (§4.3): find the
shared mesh edge, resolve the adjacent polygon via the adjacency index, then
linear-scan that polygon's loops for the matching edge; `none` when there is no
neighbor or no loop of the neighbor matches. -/
def adj_edge_cross_poly (adj : Nat → BKEPtexEdgeAdj) (me : Mesh)
    (poly_index1 : Nat) (p1 : MPoly) (loop_offset : Nat) (side : BPXSide) :
    Option (Nat × BPXEdge) :=
  let e1 := ptex_query_edge me p1 loop_offset side
  let poly_index2 := bke_ptex_edge_adj_other_poly (adj e1) (poly_index1 : Int)
  if poly_index2 = BKE_PTEX_NO_ADJ_POLY then none
  else
    let p2 := me.mpoly.getD poly_index2.toNat ⟨0, 0⟩
    (findEdgeLoop me p2 e1).map (fun i =>
      if side = BPXSide.top then
        (p2.loopstart + (i + 1) % p2.totloop, ⟨BPXSide.right, true⟩)
      else
        (p2.loopstart + i, ⟨BPXSide.top, true⟩))

/-- Side-resolution split, following the amended reading of the spec: BOTTOM and
LEFT are resolved in-face by index rotation, TOP and RIGHT through cross-polygon
adjacency with fallback to the query's own loop and side. -/
def ptex_adj_edge_spec (adj : Nat → BKEPtexEdgeAdj) (me : Mesh)
    (poly_index1 loop_offset : Nat) (loop_side : BPXSide) : Nat × BPXEdge :=
  let p1 := me.mpoly.getD poly_index1 ⟨0, 0⟩
  match loop_side with
  | .bottom => adj_edge_in_face p1 loop_offset BPXSide.bottom
  | .left => adj_edge_in_face p1 loop_offset BPXSide.left
  | side =>
    (adj_edge_cross_poly adj me poly_index1 p1 loop_offset side).getD
      (p1.loopstart + loop_offset, ⟨side, true⟩)

/-! ## Import pipeline (`BKE_ptex_import` and helpers) -/

/-- Embeds Blender's `is_power_of_2_i` (`(n & (n - 1)) == 0` on a nonnegative
`int`; note that `0` passes this test in C as well). -/
def is_power_of_2_i (n : Nat) : Bool := n &&& (n - 1) == 0

/-- Fuel-driven floor-log2 helper (kernel-computable). -/
def ptex_log2_go : Nat → Nat → Nat
  | 0, _ => 0
  | fuel + 1, n => if n ≤ 1 then 0 else ptex_log2_go fuel (n / 2) + 1

/-- Floor of log2.  `BKE_ptex_log_res_from_res` computes `(int)(log(u) / M_LN2)`
with C doubles; on the powers of two accepted by its guard this equals the exact
base-2 logarithm, which is how it is modelled here (`log(0)` is undefined in C;
the guard lets `0` through, modelled as `0`). -/
def ptex_log2 (n : Nat) : Nat := ptex_log2_go n n

/-- Embeds `BKE_ptex_log_res_from_res` (bke_ptex.c:788): accept only
power-of-two sides and return their logs; the out-parameter becomes an `Option`
result. -/
def BKE_ptex_log_res_from_res (u v : Nat) : Option MPtexLogRes :=
  if is_power_of_2_i u && is_power_of_2_i v then
    some ⟨ptex_log2 u, ptex_log2 v⟩
  else
    none

/-- Oracles for the external BPX input/image-buffer collaborators used by
the import path, indexed by the ptex face id being read:
`seek` models `BPX_image_input_seek_subimage` (`none` = seek failure, `some`
returns the subimage's width and height); `loopOk` models the combined success of
`BPX_image_input_read` and `BPX_image_buf_transform` in `mesh_ptex_import_loop`;
`loopData` the pixels they deliver; `quadOk` models the combined success of
`BPX_image_buf_alloc_empty` and `BPX_image_input_read` in
`mesh_ptex_import_quad`; `quadData` the four quadrant buffers written by
`BPX_image_buf_quad_split`. -/
structure BPXImportOracle where
  inputOpenOk : Bool
  texelInfo : Option MPtexTexelInfo
  layerAddOk : Bool
  seek : Nat → Option (Nat × Nat)
  loopOk : Nat → Bool
  loopData : Nat → List PtexTexel
  quadOk : Nat → Bool
  quadData : Nat → Nat → List PtexTexel

/-- Embeds `mesh_ptex_import_loop` (bke_ptex.c:851) for one loop at face id
`fid`.  Returns the `MLoopPtex` record written into the layer entry (`none`
when the power-of-two guard rejected the resolution, before any
initialization), and the success flag.  Note that the entry is initialized
(with the default fill) even when the subsequent read/transform fails. -/
def mesh_ptex_import_loop (ext : BPXImportOracle) (fid : Nat)
    (texel_info : MPtexTexelInfo) (width height : Nat) : Option MLoopPtex × Bool :=
  match BKE_ptex_log_res_from_res width height with
  | none => (none, false)
  | some logres =>
    let lp := BKE_loop_ptex_init texel_info logres
    if ext.loopOk fid then
      (some { lp with rect := some (ext.loopData fid) }, true)
    else
      (some lp, false)

/-- Embeds `mesh_ptex_import_quad` (bke_ptex.c:900) for the quad starting at
face id `fid`: decode the whole subimage, then initialize the four loops as
quadrants with the resolution halved on each axis (`if (logres.u >= 1)
logres.u--`, which `Nat` subtraction reproduces exactly) and transposed on
odd-indexed sub-faces; the quad-split primitive fills the four rects
(its failure is only a `BLI_assert` in C, the function still returns true).
`none` models a `false` return before any loop was touched. -/
def mesh_ptex_import_quad (ext : BPXImportOracle) (fid : Nat)
    (texel_info : MPtexTexelInfo) (width height : Nat) : Option (List MLoopPtex) :=
  match BKE_ptex_log_res_from_res width height with
  | none => none
  | some logres =>
    if ext.quadOk fid then
      let l : MPtexLogRes := ⟨logres.u - 1, logres.v - 1⟩
      let lT : MPtexLogRes := ⟨l.v, l.u⟩
      some ((List.range 4).map (fun i =>
        let lp := BKE_loop_ptex_init texel_info (if i % 2 = 0 then l else lT)
        { lp with rect := some (ext.quadData fid i) }))
    else
      none

/-- Writes a block of consecutive per-loop records into the layer, starting at
loop index `start` (the four writes of the quad path). -/
def writeEntries (layer : List (Option MLoopPtex)) (start : Nat) :
    List MLoopPtex → List (Option MLoopPtex)
  | [] => layer
  | lp :: rest => writeEntries (layer.set start (some lp)) (start + 1) rest

/-- Embeds the inner loop of `BKE_ptex_import` (bke_ptex.c:991) over the loops
of one polygon `p`, starting at loop offset `j` with `remaining` iterations
left (`remaining = p.totloop - j`).  Returns the ptex face id counter, the
updated layer and `false` when a seek/decode failure aborted the import
(`i = me->totpoly; break` in C).  The quad path consumes one subimage for the
whole polygon and breaks out of the inner loop. -/
def import_poly_go (ext : BPXImportOracle) (texel_info : MPtexTexelInfo) (p : MPoly) :
    Nat → Nat → Nat → List (Option MLoopPtex) → Nat × List (Option MLoopPtex) × Bool
  | 0, _, fid, layer => (fid, layer, true)
  | remaining + 1, j, fid, layer =>
    match ext.seek fid with
    | none => (fid, layer, false)
    | some (width, height) =>
      if p.totloop = 4 then
        match mesh_ptex_import_quad ext fid texel_info width height with
        | none => (fid, layer, false)
        | some lps => (fid + 1, writeEntries layer p.loopstart lps, true)
      else
        match mesh_ptex_import_loop ext fid texel_info width height with
        | (entry, ok) =>
          let layer1 :=
            match entry with
            | some lp => layer.set (p.loopstart + j) (some lp)
            | none => layer
          if ok then import_poly_go ext texel_info p remaining (j + 1) (fid + 1) layer1
          else (fid, layer1, false)

/-- The processing of one whole polygon by `BKE_ptex_import`'s loops. -/
def import_poly_loops (ext : BPXImportOracle) (texel_info : MPtexTexelInfo) (p : MPoly)
    (fid : Nat) (layer : List (Option MLoopPtex)) : Nat × List (Option MLoopPtex) × Bool :=
  import_poly_go ext texel_info p p.totloop 0 fid layer

/-- The outer polygon loop of `BKE_ptex_import` (bke_ptex.c:987): process
polygons in order until done or until a failure aborts the scan
(`i = me->totpoly` in C stops the outer loop but does not undo anything). -/
def import_polys (ext : BPXImportOracle) (texel_info : MPtexTexelInfo) :
    List MPoly → Nat → List (Option MLoopPtex) → Nat × List (Option MLoopPtex) × Bool
  | [], fid, layer => (fid, layer, true)
  | p :: rest, fid, layer =>
    match import_poly_loops ext texel_info p fid layer with
    | (fid1, layer1, true) => import_polys ext texel_info rest fid1 layer1
    | (fid1, layer1, false) => (fid1, layer1, false)

/-- Embeds `BKE_ptex_import` (bke_ptex.c:957).  The returned pair is the C
return value together with the mesh's per-face custom-data layer after the
call (`none` = no layer was added; `CustomData_add_layer_named` with
`CD_CALLOC` yields a zero-initialized layer, modelled as all-`none` entries).
Note the C function returns `true` even when a seek/decode failure aborted the
loop, and the partially populated layer stays on the mesh. -/
def BKE_ptex_import (ext : BPXImportOracle) (me : Mesh) :
    Bool × Option (List (Option MLoopPtex)) :=
  if !ext.inputOpenOk then (false, none)
  else
    match ext.texelInfo with
    | none => (false, none)
    | some texel_info =>
      if !ext.layerAddOk then (false, none)
      else
        let layer0 : List (Option MLoopPtex) := List.replicate me.mloop.length none
        (true, some (import_polys ext texel_info me.mpoly 0 layer0).2.1)

/-! ## Characterization helpers and concrete fixtures -/

/-- The scan-order sequence of polygon indices whose loops reference edge `e`
(one occurrence per referencing loop). -/
def edgeRefs (me : Mesh) (e : Nat) : List Nat :=
  (meshLoopRefs me).filterMap (fun pr => if pr.2 = e then some pr.1 else none)

/-- The polygons referencing edge `e`, in increasing polygon-index order. -/
def polysOfEdge (me : Mesh) (e : Nat) : List Nat :=
  (List.range me.mpoly.length).filter
    (fun pi => decide (e ∈ polyEdges me (me.mpoly.getD pi ⟨0, 0⟩)))

/-- The adjacency record holding the first at most two entries of a polygon
list: slot 0 before slot 1, `-1` for unused slots. -/
def firstTwoAdj : List Nat → BKEPtexEdgeAdj
  | [] => ⟨-1, -1⟩
  | [p] => ⟨(p : Int), -1⟩
  | p :: q :: _ => ⟨(p : Int), (q : Int)⟩

/-- An adjacency slot value is either empty (`-1`) or a valid polygon index
below `n`. -/
def slotValid (n : Nat) (x : Int) : Prop := x = -1 ∨ ∃ q : Nat, q < n ∧ x = (q : Int)

/-- Concrete fixture: two quads sharing mesh edge `1` (poly 0 = loops 0–3 with
edges 0,1,2,3; poly 1 = loops 4–7 with edges 1,4,5,6). -/
def me2 : Mesh :=
  { mpoly := [⟨0, 4⟩, ⟨4, 4⟩],
    mloop := [⟨0⟩, ⟨1⟩, ⟨2⟩, ⟨3⟩, ⟨1⟩, ⟨4⟩, ⟨5⟩, ⟨6⟩],
    totedge := 7 }

/-- Concrete fixture: two triangles sharing mesh edge `2` (poly 0 = loops 0–2,
poly 1 = loops 3–5). -/
def me1 : Mesh :=
  { mpoly := [⟨0, 3⟩, ⟨3, 3⟩],
    mloop := [⟨0⟩, ⟨1⟩, ⟨2⟩, ⟨2⟩, ⟨3⟩, ⟨4⟩],
    totedge := 5 }

/-- Concrete import oracle for `me1`: opening, layer creation and the first
three subimage seeks (for polygon 0's three loops) succeed, but seeking
subimage 3 — the first loop of polygon 1 — fails. -/
def ext1 : BPXImportOracle :=
  { inputOpenOk := true,
    texelInfo := some ⟨.float32, 3⟩,
    layerAddOk := true,
    seek := fun fid => if fid < 3 then some (2, 2) else none,
    loopOk := fun _ => true,
    loopData := fun _ => [],
    quadOk := fun _ => true,
    quadData := fun _ _ => [] }

/-- Concrete import oracle where every external call succeeds and every
subimage is 8×4. -/
def ext6 : BPXImportOracle :=
  { inputOpenOk := true,
    texelInfo := some ⟨.float32, 3⟩,
    layerAddOk := true,
    seek := fun _ => some (8, 4),
    loopOk := fun _ => true,
    loopData := fun _ => [],
    quadOk := fun _ => true,
    quadData := fun _ _ => [] }

/-! ## Helper lemmas -/

theorem FTOCHAR_four_fifths : FTOCHAR (4 / 5) = 204 := by
  unfold FTOCHAR
  rw [if_neg (by norm_num), if_neg (by norm_num)]
  have h : (255 : ℚ) * (4 / 5) + 1 / 2 = 409 / 2 := by norm_num
  rw [h]
  have h2 : ⌊(409 / 2 : ℚ)⌋ = 204 := by
    rw [Int.floor_eq_iff]
    norm_num
  rw [h2]
  rfl

theorem FTOCHAR_one : FTOCHAR 1 = 255 := by
  unfold FTOCHAR
  rw [if_neg (by norm_num), if_pos (by norm_num)]

theorem bytes_per_texel_le_16 (t : MPtexTexelInfo) (h : t.num_channels ≤ 4) :
    BKE_ptex_bytes_per_texel t ≤ 16 := by
  unfold BKE_ptex_bytes_per_texel
  cases t.data_type <;> simp [ptex_data_type_num_bytes] <;> omega

theorem area_exact (l : MPtexLogRes) (h : l.u + l.v ≤ 30) :
    ptex_area_from_logres l = 2 ^ l.u * 2 ^ l.v := by
  have hpow : 2 ^ l.u * 2 ^ l.v ≤ 2 ^ 30 := by
    rw [← pow_add]
    exact Nat.pow_le_pow_right (by norm_num) h
  unfold ptex_area_from_logres int32_of_nat_wrap size_t_of_int32 ptex_res_from_rlog2
  have h32 : 2 ^ l.u * 2 ^ l.v % 2 ^ 32 = 2 ^ l.u * 2 ^ l.v :=
    Nat.mod_eq_of_lt (lt_of_le_of_lt hpow (by norm_num))
  simp only [h32]
  rw [if_pos (lt_of_le_of_lt hpow (by norm_num))]
  have hnonneg : (0 : Int) ≤ (2 ^ l.u * 2 ^ l.v : Nat) := Int.natCast_nonneg _
  have hlt : ((2 ^ l.u * 2 ^ l.v : Nat) : Int) < 2 ^ 64 := by
    have : ((2 ^ l.u * 2 ^ l.v : Nat) : Int) ≤ ((2 ^ 30 : Nat) : Int) := by
      exact_mod_cast hpow
    omega
  rw [Int.emod_eq_of_lt hnonneg hlt]
  exact Int.toNat_natCast _

/-! ## C3 -/

/-- C3, counterexample: at the valid LogRes (15, 16) with uint8×1 texels the
C `int` multiplication in `ptex_area_from_logres` overflows (2^31 wraps to
−2^31, then converts to a huge `size_t`), so `BKE_ptex_rect_num_bytes` differs
from the spec formula `bytes_per_texel × 2^u × 2^v`. -/
theorem C3_rect_num_bytes_counterexample :
    ptex_rlog2_valid 15 = true ∧ ptex_rlog2_valid 16 = true ∧
    BKE_ptex_rect_num_bytes ⟨.uint8, 1⟩ ⟨15, 16⟩ = 18446744071562067968 ∧
    rect_num_bytes_spec ⟨.uint8, 1⟩ ⟨15, 16⟩ = 2147483648 ∧
    BKE_ptex_rect_num_bytes ⟨.uint8, 1⟩ ⟨15, 16⟩ ≠ rect_num_bytes_spec ⟨.uint8, 1⟩ ⟨15, 16⟩ := by
  refine ⟨rfl, rfl, by decide, by decide, by decide⟩

/-- C3, amended: for every valid TexelInfo and every LogRes with
`u + v ≤ 30` (the area product fits a signed 32-bit int),
`BKE_ptex_rect_num_bytes` equals `bytes_per_texel × 2^u × 2^v` exactly. -/
theorem C3_rect_num_bytes_exact (t : MPtexTexelInfo) (l : MPtexLogRes)
    (hch : t.num_channels ≤ 4) (huv : l.u + l.v ≤ 30) :
    BKE_ptex_rect_num_bytes t l = rect_num_bytes_spec t l := by
  unfold BKE_ptex_rect_num_bytes rect_num_bytes_spec
  rw [area_exact l huv]
  have hpow : 2 ^ l.u * 2 ^ l.v ≤ 2 ^ 30 := by
    rw [← pow_add]
    exact Nat.pow_le_pow_right (by norm_num) huv
  have : BKE_ptex_bytes_per_texel t * (2 ^ l.u * 2 ^ l.v) < 2 ^ 64 :=
    lt_of_le_of_lt (Nat.mul_le_mul (bytes_per_texel_le_16 t hch) hpow) (by norm_num)
  exact Nat.mod_eq_of_lt this

/-- C3, witness for the amended theorem at uint8×4 texels and LogRes (3, 4). -/
theorem C3_rect_num_bytes_exact_witness :
    ((4 : Nat) ≤ 4 ∧ 3 + 4 ≤ 30) ∧
    BKE_ptex_rect_num_bytes ⟨.uint8, 4⟩ ⟨3, 4⟩ = rect_num_bytes_spec ⟨.uint8, 4⟩ ⟨3, 4⟩ :=
  ⟨⟨by decide, by decide⟩, C3_rect_num_bytes_exact ⟨.uint8, 4⟩ ⟨3, 4⟩ (by decide) (by decide)⟩

/-! ## C8 -/

/-- C8, counterexample: channel count 0 is accepted by the descriptor
(`BKE_ptex_texel_info_init` allows 0..4) but gives `bytes_per_texel = 0`,
outside the claimed range 1..4 for uint8. -/
theorem C8_bytes_per_texel_counterexample :
    (0 : Nat) ≤ 4 ∧
    BKE_ptex_bytes_per_texel ⟨.uint8, 0⟩ = 0 ∧
    ¬ (1 ≤ BKE_ptex_bytes_per_texel ⟨.uint8, 0⟩) := by
  refine ⟨by decide, rfl, by decide⟩

/-- C8, amended: `BKE_ptex_bytes_per_texel` is the per-channel byte size times
the channel count for every accepted channel count 0..4, and for a nonzero
channel count the value lies in [1, 4] for uint8 and [4, 16] for float32
(channel count 0 gives 0). -/
theorem C8_bytes_per_texel_bounds (t : MPtexTexelInfo) (hch : t.num_channels ≤ 4) :
    BKE_ptex_bytes_per_texel t = ptex_data_type_num_bytes t.data_type * t.num_channels ∧
    (1 ≤ t.num_channels →
      (t.data_type = .uint8 →
        1 ≤ BKE_ptex_bytes_per_texel t ∧ BKE_ptex_bytes_per_texel t ≤ 4) ∧
      (t.data_type = .float32 →
        4 ≤ BKE_ptex_bytes_per_texel t ∧ BKE_ptex_bytes_per_texel t ≤ 16)) := by
  refine ⟨rfl, fun h1 => ⟨fun hdt => ?_, fun hdt => ?_⟩⟩ <;>
    simp only [BKE_ptex_bytes_per_texel, hdt, ptex_data_type_num_bytes] <;> omega

/-- C8, witness for the amended theorem at uint8×3 and float32×2. -/
theorem C8_bytes_per_texel_bounds_witness :
    (1 ≤ BKE_ptex_bytes_per_texel ⟨.uint8, 3⟩ ∧ BKE_ptex_bytes_per_texel ⟨.uint8, 3⟩ ≤ 4) ∧
    (4 ≤ BKE_ptex_bytes_per_texel ⟨.float32, 2⟩ ∧ BKE_ptex_bytes_per_texel ⟨.float32, 2⟩ ≤ 16) :=
  ⟨((C8_bytes_per_texel_bounds ⟨.uint8, 3⟩ (by decide)).2 (by decide)).1 rfl,
   ((C8_bytes_per_texel_bounds ⟨.float32, 2⟩ (by decide)).2 (by decide)).2 rfl⟩

/-! ## C4 -/

/-- C4: `bke_ptex_edge_adj_other_poly` is involutive whenever it returns a
valid polygon (the complementary-slot trick maps the result back to the query),
and it returns −1 when the queried polygon occupies no slot or when the
complementary slot is empty. -/
theorem C4_other_poly_involutive (e : BKEPtexEdgeAdj) (p : Int) :
    (bke_ptex_edge_adj_other_poly e p ≠ -1 →
      bke_ptex_edge_adj_other_poly e (bke_ptex_edge_adj_other_poly e p) = p) ∧
    (e.polys0 ≠ p → e.polys1 ≠ p → bke_ptex_edge_adj_other_poly e p = -1) ∧
    (e.polys0 = p → e.polys1 = -1 → bke_ptex_edge_adj_other_poly e p = -1) ∧
    (e.polys1 = p → e.polys0 = -1 → bke_ptex_edge_adj_other_poly e p = -1) := by
  unfold bke_ptex_edge_adj_other_poly BKE_PTEX_NO_ADJ_POLY
  by_cases h0 : e.polys0 = p
  · by_cases h01 : e.polys0 = e.polys1
    · refine ⟨fun _ => ?_, fun hA _ => ?_, fun _ hB => ?_, fun _ hB => ?_⟩ <;>
        simp [h0, ← h01] <;> omega
    · rw [h0] at h01
      refine ⟨fun _ => ?_, fun hA _ => ?_, fun _ hB => ?_, fun hA hB => ?_⟩ <;>
        simp [h0, h01] <;> omega
  · by_cases h1 : e.polys1 = p
    · refine ⟨fun _ => ?_, fun hA _ => ?_, fun hA _ => ?_, fun _ hB => ?_⟩ <;>
        simp [h0, h1] <;> omega
    · simp [h0, h1]

/-- C4, witness at the record (3, 7) queried with polygon 3: the complementary
slot is 7 and querying 7 returns 3. -/
theorem C4_other_poly_involutive_witness :
    bke_ptex_edge_adj_other_poly ⟨3, 7⟩ (bke_ptex_edge_adj_other_poly ⟨3, 7⟩ 3) = 3 :=
  (C4_other_poly_involutive ⟨3, 7⟩ 3).1 (by decide)

/-! ## C5 -/

/-- C5: `BKE_loop_ptex_resize` either fails leaving the raster completely
unchanged (same buffer, logres and texel_info) or succeeds installing the
resampled buffer delivered by the external resize and the destination logres,
keeping the texel_info. -/
theorem C5_resize_atomic (resize_result : Option (List PtexTexel))
    (lp : MLoopPtex) (dst_logres : MPtexLogRes) :
    ((BKE_loop_ptex_resize resize_result lp dst_logres).2 = false →
      (BKE_loop_ptex_resize resize_result lp dst_logres).1 = lp) ∧
    ((BKE_loop_ptex_resize resize_result lp dst_logres).2 = true →
      lp.rect ≠ none ∧
      ∃ buf, resize_result = some buf ∧
        (BKE_loop_ptex_resize resize_result lp dst_logres).1 =
          { texel_info := lp.texel_info, logres := dst_logres, rect := some buf }) := by
  cases hr : lp.rect <;> cases ho : resize_result <;>
    simp [BKE_loop_ptex_resize, hr, ho]

/-- C5, witness: a failing resize (external resample refuses) returns the
raster unchanged. -/
theorem C5_resize_atomic_witness :
    (BKE_loop_ptex_resize none ⟨⟨.uint8, 4⟩, ⟨0, 0⟩, some [.u8 [1, 2, 3, 4]]⟩ ⟨1, 1⟩).1 =
      ⟨⟨.uint8, 4⟩, ⟨0, 0⟩, some [.u8 [1, 2, 3, 4]]⟩ :=
  (C5_resize_atomic none ⟨⟨.uint8, 4⟩, ⟨0, 0⟩, some [.u8 [1, 2, 3, 4]]⟩ ⟨1, 1⟩).1 rfl

/-! ## C9 -/

/-- C9: after `BKE_loop_ptex_init` the whole buffer is the default color
(0.8, 0.8, 0.8, 1) converted to the target data type — every texel of the
allocated rect equals that converted texel — and for uint8 the conversion
quantizes by round-to-nearest with clamping to (204, 204, 204, 255). -/
theorem C9_init_default_fill (texel_info : MPtexTexelInfo) (logres : MPtexLogRes) :
    (BKE_loop_ptex_init texel_info logres).rect =
      some (List.replicate (ptex_area_from_logres logres)
        (ptex_data_from_float default_pixel texel_info.data_type texel_info.num_channels)) ∧
    ptex_data_from_float default_pixel .uint8 4 = .u8 [204, 204, 204, 255] := by
  constructor
  · unfold BKE_loop_ptex_init bke_loop_ptex_fill bke_ptex_texels_malloc
    by_cases h : ptex_area_from_logres logres < 1
    · have h0 : ptex_area_from_logres logres = 0 := by omega
      simp [h0]
    · simp [h]
  · unfold ptex_data_from_float default_pixel
    simp [FTOCHAR_four_fifths, FTOCHAR_one]

/-! ## C2 -/

/-- C2, counterexample on the two-quad mesh `me2` with the adjacency index
built from it: a TOP query on polygon 0 (loop offset 1) resolves through
cross-polygon adjacency to loop 5, which lies outside polygon 0's loop range
0..3 — so TOP is not handled by index rotation within the same polygon; and a
LEFT query on polygon 0 (loop offset 2), whose edge 1 does have an adjacent
polygon, stays inside polygon 0 (loop 3) — so LEFT is not resolved through
cross-polygon adjacency. -/
theorem C2_adj_edge_counterexample :
    ptex_adj_edge (bke_ptex_edge_adj_init me2) me2 0 1 BPXSide.top = (5, ⟨BPXSide.right, true⟩) ∧
    ¬ (5 < (me2.mpoly.getD 0 ⟨0, 0⟩).loopstart + (me2.mpoly.getD 0 ⟨0, 0⟩).totloop) ∧
    ptex_adj_edge (bke_ptex_edge_adj_init me2) me2 0 2 BPXSide.left = (3, ⟨BPXSide.bottom, true⟩) ∧
    3 < (me2.mpoly.getD 0 ⟨0, 0⟩).loopstart + (me2.mpoly.getD 0 ⟨0, 0⟩).totloop ∧
    bke_ptex_edge_adj_other_poly (bke_ptex_edge_adj_init me2 1) 0 = 1 := by
  refine ⟨by decide, by decide, by decide, by decide, by decide⟩

/-- C2, amended: BOTTOM and LEFT are handled by simple index rotation within
the same polygon without any adjacency lookup (the result is independent of the
adjacency index), while TOP and RIGHT are resolved through cross-polygon
adjacency — shared mesh edge, neighbor via the adjacency index, linear scan of
the neighbor's loops — with fallback to the query itself. -/
theorem C2_adj_edge_split (adj adj' : Nat → BKEPtexEdgeAdj) (me : Mesh)
    (poly_index1 loop_offset : Nat) :
    (∀ side, ptex_adj_edge adj me poly_index1 loop_offset side =
      ptex_adj_edge_spec adj me poly_index1 loop_offset side) ∧
    ptex_adj_edge adj me poly_index1 loop_offset BPXSide.bottom =
      ptex_adj_edge adj' me poly_index1 loop_offset BPXSide.bottom ∧
    ptex_adj_edge adj me poly_index1 loop_offset BPXSide.left =
      ptex_adj_edge adj' me poly_index1 loop_offset BPXSide.left := by
  refine ⟨fun side => ?_, rfl, rfl⟩
  cases side with
  | bottom => rfl
  | left => rfl
  | top =>
    simp only [ptex_adj_edge, ptex_adj_edge_spec, adj_edge_cross_poly]
    by_cases h : bke_ptex_edge_adj_other_poly
        (adj (ptex_query_edge me (me.mpoly.getD poly_index1 ⟨0, 0⟩) loop_offset BPXSide.top))
        (poly_index1 : Int) = BKE_PTEX_NO_ADJ_POLY
    · rw [if_pos h, if_pos h]
      rfl
    · rw [if_neg h, if_neg h]
      cases hf : findEdgeLoop me
          (me.mpoly.getD (bke_ptex_edge_adj_other_poly
            (adj (ptex_query_edge me (me.mpoly.getD poly_index1 ⟨0, 0⟩) loop_offset BPXSide.top))
            (poly_index1 : Int)).toNat ⟨0, 0⟩)
          (ptex_query_edge me (me.mpoly.getD poly_index1 ⟨0, 0⟩) loop_offset BPXSide.top) with
      | none => rfl
      | some i => rfl
  | right =>
    simp only [ptex_adj_edge, ptex_adj_edge_spec, adj_edge_cross_poly]
    by_cases h : bke_ptex_edge_adj_other_poly
        (adj (ptex_query_edge me (me.mpoly.getD poly_index1 ⟨0, 0⟩) loop_offset BPXSide.right))
        (poly_index1 : Int) = BKE_PTEX_NO_ADJ_POLY
    · rw [if_pos h, if_pos h]
      rfl
    · rw [if_neg h, if_neg h]
      cases hf : findEdgeLoop me
          (me.mpoly.getD (bke_ptex_edge_adj_other_poly
            (adj (ptex_query_edge me (me.mpoly.getD poly_index1 ⟨0, 0⟩) loop_offset BPXSide.right))
            (poly_index1 : Int)).toNat ⟨0, 0⟩)
          (ptex_query_edge me (me.mpoly.getD poly_index1 ⟨0, 0⟩) loop_offset BPXSide.right) with
      | none => rfl
      | some i => rfl

/-! ## C7 -/

theorem getD_mem {α : Type} (l : List α) (n : Nat) (d : α) (h : n < l.length) :
    l.getD n d ∈ l := by
  rw [List.getD_eq_getElem l d h]
  exact List.getElem_mem h

theorem other_poly_slot_valid (n : Nat) (r : BKEPtexEdgeAdj) (p : Int)
    (h0 : slotValid n r.polys0) (h1 : slotValid n r.polys1)
    (hne : bke_ptex_edge_adj_other_poly r p ≠ BKE_PTEX_NO_ADJ_POLY) :
    ∃ q : Nat, q < n ∧ bke_ptex_edge_adj_other_poly r p = (q : Int) := by
  unfold bke_ptex_edge_adj_other_poly at hne ⊢
  split_ifs at hne ⊢ with hA hB
  · rcases h1 with h | ⟨q, hq, hEq⟩
    · exact absurd h hne
    · exact ⟨q, hq, hEq⟩
  · rcases h0 with h | ⟨q, hq, hEq⟩
    · exact absurd h hne
    · exact ⟨q, hq, hEq⟩
  · exact absurd rfl hne

theorem findEdgeLoop_lt (me : Mesh) (p2 : MPoly) (e : Nat) (i : Nat)
    (h : findEdgeLoop me p2 e = some i) : i < p2.totloop := by
  unfold findEdgeLoop at h
  exact List.mem_range.mp (List.mem_of_find?_eq_some h)

/-- C7: for a well-formed mesh and an adjacency table whose slots are empty or
valid polygon indices, `ptex_adj_edge` always stores a loop index inside
`[0, totloop)`; moreover for the adjacency-consulting sides (TOP and RIGHT),
when no adjacent polygon exists or the matching edge is not found on the
neighbor, it stores the query's own loop index with the query's own side. -/
theorem C7_adj_edge_valid (adj : Nat → BKEPtexEdgeAdj) (me : Mesh)
    (poly_index1 loop_offset : Nat)
    (hadj : ∀ e, slotValid me.mpoly.length (adj e).polys0 ∧
      slotValid me.mpoly.length (adj e).polys1)
    (hpolys : ∀ p ∈ me.mpoly, 1 ≤ p.totloop ∧ p.loopstart + p.totloop ≤ me.mloop.length)
    (hp : poly_index1 < me.mpoly.length)
    (hoff : loop_offset < (me.mpoly.getD poly_index1 ⟨0, 0⟩).totloop) (side : BPXSide) :
    (ptex_adj_edge adj me poly_index1 loop_offset side).1 < me.mloop.length ∧
    ((side = BPXSide.top ∨ side = BPXSide.right) →
      bke_ptex_edge_adj_other_poly
        (adj (ptex_query_edge me (me.mpoly.getD poly_index1 ⟨0, 0⟩) loop_offset side))
        (poly_index1 : Int) = BKE_PTEX_NO_ADJ_POLY →
      ptex_adj_edge adj me poly_index1 loop_offset side =
        ((me.mpoly.getD poly_index1 ⟨0, 0⟩).loopstart + loop_offset, ⟨side, true⟩)) ∧
    (∀ q : Nat,
      (side = BPXSide.top ∨ side = BPXSide.right) →
      bke_ptex_edge_adj_other_poly
        (adj (ptex_query_edge me (me.mpoly.getD poly_index1 ⟨0, 0⟩) loop_offset side))
        (poly_index1 : Int) = (q : Int) →
      findEdgeLoop me (me.mpoly.getD q ⟨0, 0⟩)
        (ptex_query_edge me (me.mpoly.getD poly_index1 ⟨0, 0⟩) loop_offset side) = none →
      ptex_adj_edge adj me poly_index1 loop_offset side =
        ((me.mpoly.getD poly_index1 ⟨0, 0⟩).loopstart + loop_offset, ⟨side, true⟩)) := by
  have hp1mem : me.mpoly.getD poly_index1 ⟨0, 0⟩ ∈ me.mpoly := getD_mem _ _ _ hp
  obtain ⟨hp1t, hp1b⟩ := hpolys _ hp1mem
  cases side with
  | bottom =>
    refine ⟨?_, ?_, ?_⟩
    · have hmod : ((me.mpoly.getD poly_index1 ⟨0, 0⟩).totloop + loop_offset - 1) %
          (me.mpoly.getD poly_index1 ⟨0, 0⟩).totloop <
          (me.mpoly.getD poly_index1 ⟨0, 0⟩).totloop :=
        Nat.mod_lt _ (by omega)
      show (me.mpoly.getD poly_index1 ⟨0, 0⟩).loopstart +
          ((me.mpoly.getD poly_index1 ⟨0, 0⟩).totloop + loop_offset - 1) %
            (me.mpoly.getD poly_index1 ⟨0, 0⟩).totloop < me.mloop.length
      omega
    · rintro (h | h) <;> exact absurd h (by decide)
    · rintro q (h | h) <;> exact fun _ _ => absurd h (by decide)
  | left =>
    refine ⟨?_, ?_, ?_⟩
    · have hmod : (loop_offset + 1) % (me.mpoly.getD poly_index1 ⟨0, 0⟩).totloop <
          (me.mpoly.getD poly_index1 ⟨0, 0⟩).totloop :=
        Nat.mod_lt _ (by omega)
      show (me.mpoly.getD poly_index1 ⟨0, 0⟩).loopstart +
          (loop_offset + 1) % (me.mpoly.getD poly_index1 ⟨0, 0⟩).totloop < me.mloop.length
      omega
    · rintro (h | h) <;> exact absurd h (by decide)
    · rintro q (h | h) <;> exact fun _ _ => absurd h (by decide)
  | top =>
    simp only [ptex_adj_edge]
    by_cases hq : bke_ptex_edge_adj_other_poly
        (adj (ptex_query_edge me (me.mpoly.getD poly_index1 ⟨0, 0⟩) loop_offset BPXSide.top))
        (poly_index1 : Int) = BKE_PTEX_NO_ADJ_POLY
    · rw [if_pos hq]
      exact ⟨lt_of_lt_of_le (by omega) hp1b, fun _ _ => rfl, fun q _ _ _ => rfl⟩
    · rw [if_neg hq]
      obtain ⟨q, hqlt, hqeq⟩ :=
        other_poly_slot_valid me.mpoly.length _ _ (hadj _).1 (hadj _).2 hq
      rw [hqeq, Int.toNat_natCast]
      have hp2mem : me.mpoly.getD q ⟨0, 0⟩ ∈ me.mpoly := getD_mem _ _ _ hqlt
      obtain ⟨hp2t, hp2b⟩ := hpolys _ hp2mem
      cases hf : findEdgeLoop me (me.mpoly.getD q ⟨0, 0⟩)
          (ptex_query_edge me (me.mpoly.getD poly_index1 ⟨0, 0⟩) loop_offset BPXSide.top) with
      | none =>
        refine ⟨?_, ?_, fun q' _ _ _ => rfl⟩
        · show (me.mpoly.getD poly_index1 ⟨0, 0⟩).loopstart + loop_offset < me.mloop.length
          omega
        · intro _ habs
          unfold BKE_PTEX_NO_ADJ_POLY at habs
          omega
      | some i =>
        have hilt : i < (me.mpoly.getD q ⟨0, 0⟩).totloop := findEdgeLoop_lt _ _ _ _ hf
        refine ⟨?_, ?_, ?_⟩
        · have hmod : (i + 1) % (me.mpoly.getD q ⟨0, 0⟩).totloop <
              (me.mpoly.getD q ⟨0, 0⟩).totloop := Nat.mod_lt _ (by omega)
          show (me.mpoly.getD q ⟨0, 0⟩).loopstart +
              (i + 1) % (me.mpoly.getD q ⟨0, 0⟩).totloop < me.mloop.length
          omega
        · intro _ habs
          unfold BKE_PTEX_NO_ADJ_POLY at habs
          omega
        · intro q' _ hq' hfind
          have hqq : q' = q := by omega
          rw [hqq, hf] at hfind
          exact absurd hfind (by simp)
  | right =>
    simp only [ptex_adj_edge]
    by_cases hq : bke_ptex_edge_adj_other_poly
        (adj (ptex_query_edge me (me.mpoly.getD poly_index1 ⟨0, 0⟩) loop_offset BPXSide.right))
        (poly_index1 : Int) = BKE_PTEX_NO_ADJ_POLY
    · rw [if_pos hq]
      exact ⟨lt_of_lt_of_le (by omega) hp1b, fun _ _ => rfl, fun q _ _ _ => rfl⟩
    · rw [if_neg hq]
      obtain ⟨q, hqlt, hqeq⟩ :=
        other_poly_slot_valid me.mpoly.length _ _ (hadj _).1 (hadj _).2 hq
      rw [hqeq, Int.toNat_natCast]
      have hp2mem : me.mpoly.getD q ⟨0, 0⟩ ∈ me.mpoly := getD_mem _ _ _ hqlt
      obtain ⟨hp2t, hp2b⟩ := hpolys _ hp2mem
      cases hf : findEdgeLoop me (me.mpoly.getD q ⟨0, 0⟩)
          (ptex_query_edge me (me.mpoly.getD poly_index1 ⟨0, 0⟩) loop_offset BPXSide.right) with
      | none =>
        refine ⟨?_, ?_, fun q' _ _ _ => rfl⟩
        · show (me.mpoly.getD poly_index1 ⟨0, 0⟩).loopstart + loop_offset < me.mloop.length
          omega
        · intro _ habs
          unfold BKE_PTEX_NO_ADJ_POLY at habs
          omega
      | some i =>
        have hilt : i < (me.mpoly.getD q ⟨0, 0⟩).totloop := findEdgeLoop_lt _ _ _ _ hf
        refine ⟨?_, ?_, ?_⟩
        · show (me.mpoly.getD q ⟨0, 0⟩).loopstart + i < me.mloop.length
          omega
        · intro _ habs
          unfold BKE_PTEX_NO_ADJ_POLY at habs
          omega
        · intro q' _ hq' hfind
          have hqq : q' = q := by omega
          rw [hqq, hf] at hfind
          exact absurd hfind (by simp)

/-- C7, witness on the two-quad mesh with an empty adjacency table (boundary
everywhere): the TOP query stores a valid loop index. -/
theorem C7_adj_edge_valid_witness :
    (ptex_adj_edge (fun _ => ⟨-1, -1⟩) me2 0 1 BPXSide.top).1 < me2.mloop.length :=
  (C7_adj_edge_valid (fun _ => ⟨-1, -1⟩) me2 0 1
    (fun _ => ⟨Or.inl rfl, Or.inl rfl⟩)
    (by decide)
    (by decide)
    (by decide) BPXSide.top).1

/-! ## C10 -/

theorem adj_fold_pointwise (L : List (Nat × Nat)) (st : Nat → BKEPtexEdgeAdj) (e : Nat) :
    (L.foldl bke_ptex_edge_adj_step st) e =
      (L.filterMap (fun pr => if pr.2 = e then some pr.1 else none)).foldl
        adjInsertNat (st e) := by
  induction L generalizing st with
  | nil => rfl
  | cons x L ih =>
    by_cases h : x.2 = e
    · simp only [List.foldl_cons, List.filterMap_cons, h, if_pos rfl, ih,
        bke_ptex_edge_adj_step, adjInsertNat]
      simp [h, adjInsertNat]
    · simp only [List.foldl_cons, List.filterMap_cons, ih, bke_ptex_edge_adj_step]
      simp [h]

theorem adj_foldl_full (l : List Nat) (r : BKEPtexEdgeAdj)
    (h0 : r.polys0 ≠ -1) (h1 : r.polys1 ≠ -1) :
    l.foldl adjInsertNat r = r := by
  induction l with
  | nil => rfl
  | cons x l ih =>
    have hx : adjInsertNat r x = r := by
      unfold adjInsertNat bke_ptex_edge_adj_insert BKE_PTEX_NO_ADJ_POLY
      rw [if_neg h0, if_neg h1]
    rw [List.foldl_cons, hx, ih]

theorem adj_foldl_firstTwo (l : List Nat) :
    l.foldl adjInsertNat ⟨-1, -1⟩ = firstTwoAdj l := by
  match l with
  | [] => rfl
  | [p] =>
    show adjInsertNat ⟨-1, -1⟩ p = firstTwoAdj [p]
    unfold adjInsertNat bke_ptex_edge_adj_insert BKE_PTEX_NO_ADJ_POLY firstTwoAdj
    rw [if_pos rfl]
  | p :: q :: rest =>
    have h1 : adjInsertNat ⟨-1, -1⟩ p = ⟨(p : Int), -1⟩ := by
      unfold adjInsertNat bke_ptex_edge_adj_insert BKE_PTEX_NO_ADJ_POLY
      rw [if_pos rfl]
    have h2 : adjInsertNat ⟨(p : Int), -1⟩ q = ⟨(p : Int), (q : Int)⟩ := by
      unfold adjInsertNat bke_ptex_edge_adj_insert BKE_PTEX_NO_ADJ_POLY
      rw [if_neg (show ¬((p : Int) = -1) by omega), if_pos rfl]
    rw [List.foldl_cons, List.foldl_cons, h1, h2]
    exact adj_foldl_full rest ⟨(p : Int), (q : Int)⟩
      (show ¬((p : Int) = -1) by omega) (show ¬((q : Int) = -1) by omega)

theorem adj_init_eq_firstTwo_refs (me : Mesh) (e : Nat) :
    bke_ptex_edge_adj_init me e = firstTwoAdj (edgeRefs me e) := by
  unfold bke_ptex_edge_adj_init edgeRefs
  rw [adj_fold_pointwise]
  exact adj_foldl_firstTwo _

theorem filterMap_flatMap_dist {α β γ : Type} (l : List α) (g : α → List β) (f : β → Option γ) :
    (l.flatMap g).filterMap f = l.flatMap (fun a => (g a).filterMap f) := by
  induction l with
  | nil => rfl
  | cons x l ih => simp only [List.flatMap_cons, List.filterMap_append, ih]

theorem filterMap_select_count (edges : List Nat) (e : Nat) (pi : Nat) :
    edges.filterMap (fun ed => if ed = e then some pi else none) =
      List.replicate (edges.count e) pi := by
  induction edges with
  | nil => rfl
  | cons x l ih =>
    by_cases h : x = e
    · simp [List.filterMap_cons, h, ih, List.count_cons, List.replicate_succ]
    · simp [List.filterMap_cons, h, ih, List.count_cons]

theorem flatMap_eq_filter {α : Type} [DecidableEq α] (l : List α) (g : α → List α)
    (p : α → Bool) (h : ∀ a ∈ l, g a = if p a then [a] else []) :
    l.flatMap g = l.filter p := by
  induction l with
  | nil => rfl
  | cons x l ih =>
    rw [List.flatMap_cons, h x (List.mem_cons_self x l), List.filter_cons]
    have ih2 := ih (fun a ha => h a (List.mem_cons_of_mem x ha))
    by_cases hp : p x
    · simp [hp, ih2]
    · simp [hp, ih2]

theorem edgeRefs_eq_polysOfEdge (me : Mesh) (e : Nat)
    (hcount : ∀ pi, pi < me.mpoly.length →
      (polyEdges me (me.mpoly.getD pi ⟨0, 0⟩)).count e ≤ 1) :
    edgeRefs me e = polysOfEdge me e := by
  unfold edgeRefs meshLoopRefs polysOfEdge
  rw [filterMap_flatMap_dist]
  apply flatMap_eq_filter
  intro pi hpi
  rw [List.filterMap_map]
  have hsel : ((fun pr : Nat × Nat => if pr.2 = e then some pr.1 else none) ∘
      (fun ed => (pi, ed))) = (fun ed => if ed = e then some pi else none) := rfl
  rw [hsel, filterMap_select_count]
  have hle := hcount pi (List.mem_range.mp hpi)
  by_cases hmem : e ∈ polyEdges me (me.mpoly.getD pi ⟨0, 0⟩)
  · have hpos : 0 < (polyEdges me (me.mpoly.getD pi ⟨0, 0⟩)).count e :=
      List.count_pos_iff.mpr hmem
    have hone : (polyEdges me (me.mpoly.getD pi ⟨0, 0⟩)).count e = 1 := by omega
    rw [hone, if_pos (decide_eq_true hmem)]
    rfl
  · have hzero : (polyEdges me (me.mpoly.getD pi ⟨0, 0⟩)).count e = 0 :=
      List.count_eq_zero.mpr hmem
    rw [hzero, if_neg (by simpa using hmem)]
    rfl

theorem firstTwoAdj_slot1_needs_slot0 (l : List Nat) :
    (firstTwoAdj l).polys1 ≠ -1 → (firstTwoAdj l).polys0 ≠ -1 := by
  match l with
  | [] => exact fun h => h
  | [p] => exact fun h => absurd rfl h
  | p :: q :: rest =>
    intro _
    show ¬((p : Int) = -1)
    omega

/-- C10: after `bke_ptex_edge_adj_init` on a mesh where no polygon repeats an
edge among its own loops, every edge's record holds the first at most two
polygons (in increasing polygon-index scan order) whose loops reference that
edge, slot 0 filled before slot 1; slot 1 is filled only if slot 0 is; and the
insertion step never overwrites a full record, so any third or later
referencing polygon is silently ignored. -/
theorem C10_adj_init_first_two (me : Mesh) (e : Nat)
    (hcount : ∀ pi, pi < me.mpoly.length →
      (polyEdges me (me.mpoly.getD pi ⟨0, 0⟩)).count e ≤ 1) :
    bke_ptex_edge_adj_init me e = firstTwoAdj (polysOfEdge me e) ∧
    ((bke_ptex_edge_adj_init me e).polys1 ≠ -1 →
      (bke_ptex_edge_adj_init me e).polys0 ≠ -1) ∧
    (∀ r p, r.polys0 ≠ -1 → r.polys1 ≠ -1 → bke_ptex_edge_adj_insert r p = r) := by
  have hchar : bke_ptex_edge_adj_init me e = firstTwoAdj (polysOfEdge me e) := by
    rw [adj_init_eq_firstTwo_refs, edgeRefs_eq_polysOfEdge me e hcount]
  refine ⟨hchar, ?_, ?_⟩
  · rw [hchar]
    exact firstTwoAdj_slot1_needs_slot0 _
  · intro r p h0 h1
    unfold bke_ptex_edge_adj_insert BKE_PTEX_NO_ADJ_POLY
    rw [if_neg h0, if_neg h1]

/-- C10, witness on the two-quad mesh at the shared edge 1: the record holds
exactly polygons 0 and 1 in scan order. -/
theorem C10_adj_init_first_two_witness :
    bke_ptex_edge_adj_init me2 1 = firstTwoAdj (polysOfEdge me2 1) :=
  (C10_adj_init_first_two me2 1 (by decide)).1

/-! ## C1 -/

/-- C1: evaluation of `BKE_ptex_import` on the two-triangle mesh with an input
whose subimage-3 seek fails (after polygon 0's three subimages succeeded).  The
function still returns `true`, and the freshly added per-face layer stays on
the mesh with polygon 0's three loops populated and polygon 1's three loops
still zero-initialized — the partially loaded data is not discarded. -/
theorem C1_import_failure_keeps_partial_layer :
    (BKE_ptex_import ext1 me1).1 = true ∧
    (BKE_ptex_import ext1 me1).2.map (fun layer => layer.map Option.isSome) =
      some [true, true, true, false, false, false] := by
  constructor
  · rfl
  · decide

/-! ## C6 -/

theorem init_texel_info (ti : MPtexTexelInfo) (lr : MPtexLogRes) :
    (BKE_loop_ptex_init ti lr).texel_info = ti := by
  unfold BKE_loop_ptex_init bke_loop_ptex_fill
  by_cases h : ptex_area_from_logres lr < 1 <;> simp [h]

theorem init_logres (ti : MPtexTexelInfo) (lr : MPtexLogRes) :
    (BKE_loop_ptex_init ti lr).logres = lr := by
  unfold BKE_loop_ptex_init bke_loop_ptex_fill
  by_cases h : ptex_area_from_logres lr < 1 <;> simp [h]

/-- C6: inside `BKE_ptex_import`, a polygon with exactly 4 loops whose subimage
seek succeeds with power-of-two resolution (W, H) and whose decode succeeds
consumes exactly one subimage — the face-id counter advances by exactly 1 for
the whole polygon — and writes four per-loop rasters whose LogRes is
(log2 W − 1, log2 H − 1) (clamped at zero), with u and v transposed on the
odd-indexed sub-faces. -/
theorem C6_quad_import (ext : BPXImportOracle) (texel_info : MPtexTexelInfo) (p : MPoly)
    (fid : Nat) (layer : List (Option MLoopPtex)) (width height : Nat)
    (htot : p.totloop = 4)
    (hseek : ext.seek fid = some (width, height))
    (hw : is_power_of_2_i width = true) (hh : is_power_of_2_i height = true)
    (hq : ext.quadOk fid = true) :
    import_poly_loops ext texel_info p fid layer =
      (fid + 1,
       writeEntries layer p.loopstart
         [⟨texel_info, ⟨ptex_log2 width - 1, ptex_log2 height - 1⟩, some (ext.quadData fid 0)⟩,
          ⟨texel_info, ⟨ptex_log2 height - 1, ptex_log2 width - 1⟩, some (ext.quadData fid 1)⟩,
          ⟨texel_info, ⟨ptex_log2 width - 1, ptex_log2 height - 1⟩, some (ext.quadData fid 2)⟩,
          ⟨texel_info, ⟨ptex_log2 height - 1, ptex_log2 width - 1⟩, some (ext.quadData fid 3)⟩],
       true) := by
  unfold import_poly_loops
  rw [htot]
  rw [show (4 : Nat) = 3 + 1 from rfl]
  simp only [import_poly_go, hseek, htot]
  simp only [mesh_ptex_import_quad, BKE_ptex_log_res_from_res, hw, hh, hq,
    Bool.and_self, if_pos rfl, if_true]
  simp only [show List.range 4 = [0, 1, 2, 3] from rfl, List.map_cons, List.map_nil]
  norm_num
  simp only [init_texel_info, init_logres]

/-- C6, witness: a 4-loop polygon at face id 0 importing one 8×4 subimage
advances the counter to 1 and yields LogRes (2,1), (1,2), (2,1), (1,2). -/
theorem C6_quad_import_witness :
    import_poly_loops ext6 ⟨.float32, 3⟩ ⟨0, 4⟩ 0 (List.replicate 8 none) =
      (1, writeEntries (List.replicate 8 none) 0
        [⟨⟨.float32, 3⟩, ⟨2, 1⟩, some []⟩, ⟨⟨.float32, 3⟩, ⟨1, 2⟩, some []⟩,
         ⟨⟨.float32, 3⟩, ⟨2, 1⟩, some []⟩, ⟨⟨.float32, 3⟩, ⟨1, 2⟩, some []⟩], true) :=
  C6_quad_import ext6 ⟨.float32, 3⟩ ⟨0, 4⟩ 0 (List.replicate 8 none) 8 4
    rfl rfl (by decide) (by decide) rfl
